import Mathlib

/-!
A shallow embedding of the transform/aggregation engine of the ETL-Pipeline
repository (`excel_load.py`, class `Load`), together with theorems settling
the specification claims about it.

Conventions of the embedding:
* A spreadsheet row is a `Row`; numeric cells that may fail coercion are
  `Option ℚ` (a `none` stands for any value that Python's `float` conversion
  rejects, matching the `except (ValueError, TypeError)` boundary).
* Python's case-insensitive regex matching (the `(?i)` flag) and `str.upper`
  are modelled by ASCII uppercasing (`pyUpper`); the `\d` class is modelled by
  ASCII digits, which covers the identifiers this pipeline handles.
* The `Transform` collaborator (`excel_transform.py`) is not part of the
  sources; its statistics functions are modelled from the specification, each
  marked `Modelled from the spec:` in its doc comment.
-/

namespace ETL

/-- A cleaned spreadsheet row: the columns the extractor keeps
("Sample ID", "Sample Type", "Mean (per analysis type)", "PPM",
"Adjusted ABS"), numeric columns as `Option ℚ`. -/
structure Row where
  sampleId : String
  sampleType : String
  meanPerAnalysisType : Option ℚ
  ppm : Option ℚ
  adjustedAbs : Option ℚ
  deriving Repr, DecidableEq

/-- An ordered in-memory table. -/
abbrev Table := List Row

/-- ASCII uppercasing of a string; models Python `str.upper()` and the
`(?i)` regex flag for the ASCII identifiers of this pipeline. -/
def pyUpper (s : String) : String := String.mk (s.data.map Char.toUpper)

/-- Models Python `str.strip()` / pandas `.str.strip()`: drop whitespace from
both ends (space, tab, CR, LF — the whitespace this pipeline's identifiers
can carry). -/
def pyStrip (s : String) : String :=
  String.mk (((s.data.dropWhile Char.isWhitespace).reverse.dropWhile
    Char.isWhitespace).reverse)

/-- Models the `\d+` tail of the `CCV\d+` / `CCB\d+` alternatives: a
non-empty run of (ASCII) digits. -/
def digitTail (cs : List Char) : Bool := !cs.isEmpty && cs.all (·.isDigit)

/-- The `CCV\d+` alternative (after uppercasing) as a full-string match. -/
def ccv_tail (u : List Char) : Bool :=
  match u with
  | 'C' :: 'C' :: 'V' :: rest => digitTail rest
  | _ => false

/-- The `CCB\d+` alternative (after uppercasing) as a full-string match. -/
def ccb_tail (u : List Char) : Bool :=
  match u with
  | 'C' :: 'C' :: 'B' :: rest => digitTail rest
  | _ => false

/-- `Load.sample_groups`'s QC pattern `(?i)^(MDL|ICV|ICB|CCV\d+|CCB\d+|Rinse)$`
(`excel_load.py` line 30), as a full-string, case-insensitive match. -/
def qc_pattern_match (s : String) : Bool :=
  let u := (pyUpper s).data
  u == "MDL".data || u == "ICV".data || u == "ICB".data || u == "RINSE".data ||
    ccv_tail u || ccb_tail u

/-- `Load.format_qc`'s narrow QC mask `(?i)^(MDL|ICV|CCV\d+)$`
(`excel_load.py` line 57). -/
def qc_mask (s : String) : Bool :=
  let u := (pyUpper s).data
  u == "MDL".data || u == "ICV".data || ccv_tail u

/-- `Load.format_qc`'s QCB mask `(?i)^(ICB|CCB\d+)$` (`excel_load.py` line 58). -/
def qcb_mask (s : String) : Bool :=
  let u := (pyUpper s).data
  u == "ICB".data || ccb_tail u

/-- The spec's `QCCategory` tagged variant. -/
inductive QCCategory
  | MDL | ICV | ICB | CCV | CCB | Rinse | Sample
  deriving Repr, DecidableEq

/-- The spec's `classify` — the classification the source performs through the
case-insensitive full-string regex `^(MDL|ICV|ICB|CCV\d+|CCB\d+|Rinse)$`;
anything not matching is an ordinary `Sample`. -/
def classify (s : String) : QCCategory :=
  let u := (pyUpper s).data
  if u == "MDL".data then .MDL
  else if u == "ICV".data then .ICV
  else if u == "ICB".data then .ICB
  else if u == "RINSE".data then .Rinse
  else if ccv_tail u then .CCV
  else if ccb_tail u then .CCB
  else .Sample

/-- `Load.is_out_of_bounds` (`excel_load.py` lines 10-24): a `none` value
stands for anything `float()` rejects. -/
def is_out_of_bounds (value : Option ℚ) (check_type : String) : Bool :=
  match value with
  | none => false
  | some val =>
    if check_type == "QC_R" then decide (val < 90) || decide (val > 110)
    else if check_type == "MDL_R" then decide (val < 45) || decide (val > 145)
    else if check_type == "RPD" then decide (val > 10)
    else false

/-- Modelled from the spec: `Transform.calculate_mean_ppm` — arithmetic mean
of the non-null `ppm` values; null if there are none
(`excel_transform.py` is absent from the sources). -/
def mean_of (vals : List ℚ) : Option ℚ :=
  if vals.isEmpty then none else some (vals.sum / vals.length)

/-- Modelled from the spec: `Transform.calculate_mean_ppm` on a row subset. -/
def calculate_mean_ppm (rows : Table) : Option ℚ :=
  mean_of (rows.filterMap (·.ppm))

/-- Modelled from the spec: `Transform.calculate_percent_R` — a null or zero
target yields null, never an exception; otherwise the group mean as a
percentage of the target (the spec leaves open whether ratios are averaged
per row or taken on the group mean; the group-mean semantics is used, and no
claim depends on the choice). -/
def calculate_percent_R (rows : Table) (target : Option ℚ) : Option ℚ :=
  match target with
  | none => none
  | some t => if t = 0 then none else (calculate_mean_ppm rows).map (fun m => m / t * 100)

/-- Modelled from the spec: `Transform.calculate_rpd` — null if fewer than two
non-null values or the mean is null/zero; otherwise the spread of the group's
ppm values relative to the mean, as a percentage. -/
def calculate_rpd (rows : Table) (meanPpm : Option ℚ) : Option ℚ :=
  let vals := rows.filterMap (·.ppm)
  match meanPpm with
  | none => none
  | some m =>
    if vals.length < 2 ∨ m = 0 then none
    else some ((vals.foldl max (vals.headD 0) - vals.foldl min (vals.headD 0)) / m * 100)

/-- Modelled from the spec: `Transform.convert_to_umol_per_L` — the ppm-to-µmol/L
conversion `meanPpm / molecularWeight`; null if the mean is null. -/
def convert_to_umol_per_L (meanPpm : Option ℚ) (mw : ℚ) : Option ℚ :=
  meanPpm.map (· / mw)

/-- `Load.molecular_weight = 12.01057` (`excel_load.py` line 8). -/
def molecular_weight : ℚ := 1201057 / 100000

/-- Modelled from the spec: `Transform.clean_data` — trims identifiers; the
numeric coercions are already reflected in the `Option ℚ` cell type; no rows
are dropped. -/
def clean_data (t : Table) : Table :=
  t.map fun r => { r with sampleId := pyStrip r.sampleId }

/-- The column assignment `df["Sample ID"] = df["Sample ID"].str.strip()`
applied to one row. -/
def trimRow (r : Row) : Row := { r with sampleId := pyStrip r.sampleId }

/-- The trimming column assignment over a whole table. -/
def trimIds (t : Table) : Table := t.map trimRow

/-- The loop of `Load.get_unique_ordered_ids` (`excel_load.py` lines 36-43):
`seen` models the Python set, `ordered_ids` is the returned accumulation. -/
def unique_aux : List String → List String → List String
  | [], _ => []
  | sid :: rest, seen =>
    if sid ∈ seen then unique_aux rest seen
    else sid :: unique_aux rest (sid :: seen)

/-- `Load.get_unique_ordered_ids`: first-seen-ordered deduplication of the
table's "Sample ID" column. -/
def get_unique_ordered_ids (df : Table) : List String :=
  unique_aux (df.map (·.sampleId)) []

/-- `Load.build_sample_groups` (`excel_load.py` lines 45-50): one
`(sample_id, group)` pair per ordered identifier, the group being the rows of
`df` with that identifier. -/
def build_sample_groups (df : Table) (ordered_ids : List String) :
    List (String × Table) :=
  ordered_ids.map fun sample_id => (sample_id, df.filter (fun r => r.sampleId == sample_id))

/-- `Load.sample_groups` (`excel_load.py` lines 26-34), taking the cleaned
table as input: trim identifiers, drop QC-pattern rows, group the rest in
first-seen order. -/
def sample_groups (cleaned : Table) : Table × List (String × Table) :=
  let df := trimIds cleaned
  let samples_only := df.filter (fun r => !qc_pattern_match r.sampleId)
  (samples_only, build_sample_groups samples_only (get_unique_ordered_ids samples_only))

/-- One record of the QC output table (columns "Sample ID", "PPM C",
"Mean ppm C", "%R", "%RPD", "Bounds"); the separator record has a null
Sample ID. -/
structure QCRecord where
  sampleId : Option String
  ppmC : Option ℚ
  meanPpmC : Option ℚ
  percentR : Option ℚ
  percentRPD : Option ℚ
  bounds : Option String
  deriving Repr, DecidableEq

/-- The fixed bounds annotation of the QC table (`excel_load.py` line 104). -/
def qc_bounds_text : String := "MDL %R: 45-145%, ICV/CCV %R: 90-110%"

/-- The all-null separator record (`excel_load.py` line 66). -/
def null_qc_record : QCRecord := ⟨none, none, none, none, none, none⟩

/-- The per-row QC record before any summary is merged
(`excel_load.py` lines 83-90). -/
def base_qc_record (r : Row) : QCRecord :=
  ⟨some r.sampleId, r.ppm, none, none, none, none⟩

/-- The `qc_targets` dict lookup `{"MDL": 0.2, "ICV": 18.0}.get(u)`
(`excel_load.py` line 73), keyed by the uppercased identifier. -/
def qc_targets (u : String) : Option ℚ :=
  if u == "MDL" then some (1/5)
  else if u == "ICV" then some 18
  else none

/-- `str(sample_id).upper().startswith("CCV")` (`excel_load.py` line 92). -/
def upper_startsWith_CCV (s : String) : Bool :=
  match (pyUpper s).data with
  | 'C' :: 'C' :: 'V' :: _ => true
  | _ => false

/-- The target resolution of `Load.build_qc_records` (`excel_load.py` line 92):
`10.0` for a CCV-prefixed identifier, else the dict lookup. -/
def resolve_target (sample_id : String) : Option ℚ :=
  if upper_startsWith_CCV sample_id then some 10
  else qc_targets (pyUpper sample_id)

/-- The summary assignment to `group_records[-1]` (`excel_load.py` lines 97-100). -/
def set_last_summary : List QCRecord → Option ℚ → Option ℚ → Option ℚ → List QCRecord
  | [], _, _, _ => []
  | [last], m, r, p => [{ last with meanPpmC := m, percentR := r, percentRPD := p }]
  | x :: y :: xs, m, r, p => x :: set_last_summary (y :: xs) m r p

/-- The bounds assignment to `group_records[0]` (`excel_load.py` line 104). -/
def set_head_bounds (recs : List QCRecord) (b : String) : List QCRecord :=
  match recs with
  | [] => []
  | x :: xs => { x with bounds := some b } :: xs

/-- One loop iteration of `Load.build_qc_records` for one identifier: the
group's rows as records, with the group's mean/%R/%RPD merged into the last. -/
def qc_group_records (qc_samples : Table) (sample_id : String) : List QCRecord :=
  let group := qc_samples.filter (fun r => r.sampleId == sample_id)
  let mean_ppm := calculate_mean_ppm group
  let target := resolve_target sample_id
  let percent_r := calculate_percent_R group target
  let rpd := calculate_rpd group mean_ppm
  set_last_summary (group.map base_qc_record) mean_ppm percent_r rpd

/-- The loop of `Load.build_qc_records` (`excel_load.py` lines 77-109), the
Boolean threading `add_bounds_once and not bounds_added`. -/
def build_qc_records_aux (qc_samples : Table) :
    List String → Bool → List QCRecord
  | [], _ => []
  | sample_id :: rest, bounds_pending =>
    let recs := qc_group_records qc_samples sample_id
    let recs := if bounds_pending then set_head_bounds recs qc_bounds_text else recs
    recs ++ build_qc_records_aux qc_samples rest false

/-- `Load.build_qc_records` (`excel_load.py` lines 72-110); pandas `unique()`
preserves first-seen order, as does `get_unique_ordered_ids`. -/
def build_qc_records (qc_samples : Table) (add_bounds_once : Bool) : List QCRecord :=
  build_qc_records_aux qc_samples (get_unique_ordered_ids qc_samples) add_bounds_once

/-- `Load.build_qcb_records` (`excel_load.py` lines 112-116). -/
def build_qcb_records (qcb_samples : Table) : List QCRecord :=
  qcb_samples.map base_qc_record

/-- `Load.build_qcb_average` (`excel_load.py` lines 118-120): the pooled mean
over all QCB rows combined. -/
def build_qcb_average (qcb_samples : Table) : QCRecord :=
  ⟨some "Average", calculate_mean_ppm qcb_samples, none, none, none, none⟩

/-- `samples = df[df["Sample Type"] == "Samples"].copy()` followed by the
trimming column assignment (`excel_load.py` lines 54-55). -/
def samples_typed (df : Table) : Table :=
  trimIds (df.filter (fun r => r.sampleType == "Samples"))

/-- `qc_samples = samples[qc_mask]` (`excel_load.py` lines 57-59). -/
def qc_samples_of (df : Table) : Table :=
  (samples_typed df).filter (fun r => qc_mask r.sampleId)

/-- `qcb_samples = samples[qcb_mask]` (`excel_load.py` lines 58-60). -/
def qcb_samples_of (df : Table) : Table :=
  (samples_typed df).filter (fun r => qcb_mask r.sampleId)

/-- `Load.format_qc` (`excel_load.py` lines 52-70), taking `transformer.df`
(the cleaned table, a collaborator attribute modelled from the spec) as its
input. -/
def format_qc (df : Table) : List QCRecord :=
  build_qc_records (qc_samples_of df) true
    ++ [null_qc_record]
    ++ build_qcb_records (qcb_samples_of df)
    ++ [build_qcb_average (qcb_samples_of df)]

/-- One record of the Samples output table (columns "Sample ID", "PPM C",
"Mean ppm C", "%RPD", "umol/L C", "Bounds"). -/
structure SampleRecord where
  sampleId : String
  ppmC : Option ℚ
  meanPpmC : Option ℚ
  percentRPD : Option ℚ
  umolPerL : Option ℚ
  bounds : Option String
  deriving Repr, DecidableEq

/-- The fixed bounds annotation of the Samples table (`excel_load.py` line 134). -/
def samples_bounds_text : String := "RPD: ≤10%"

/-- `Load.build_sample_group_records` (`excel_load.py` lines 140-144). -/
def build_sample_group_records (group : Table) : List SampleRecord :=
  group.map fun r => ⟨r.sampleId, r.ppm, none, none, none, none⟩

/-- The summary assignment to `last_record` in `Load.add_summary_to_last_record`
(`excel_load.py` lines 150-154), which also nulls the Bounds field. -/
def set_last_sample_summary :
    List SampleRecord → Option ℚ → Option ℚ → Option ℚ → List SampleRecord
  | [], _, _, _ => []
  | [last], m, r, u => [{ last with meanPpmC := m, percentRPD := r, umolPerL := u, bounds := none }]
  | x :: y :: xs, m, r, u => x :: set_last_sample_summary (y :: xs) m r u

/-- `Load.add_summary_to_last_record` (`excel_load.py` lines 146-154). -/
def add_summary_to_last_record (group : Table) (recs : List SampleRecord) :
    List SampleRecord :=
  let mean_ppm := calculate_mean_ppm group
  let rpd := calculate_rpd group mean_ppm
  let mean_umol := convert_to_umol_per_L mean_ppm molecular_weight
  set_last_sample_summary recs mean_ppm rpd mean_umol

/-- The bounds assignment to `group_records[0]` (`excel_load.py` line 134). -/
def set_head_sample_bounds (recs : List SampleRecord) (b : String) : List SampleRecord :=
  match recs with
  | [] => []
  | x :: xs => { x with bounds := some b } :: xs

/-- The loop of `Load.format_samples` (`excel_load.py` lines 128-137) with its
`bounds_added` flag. -/
def format_samples_aux : List (String × Table) → Bool → List SampleRecord
  | [], _ => []
  | (_, group) :: rest, bounds_pending =>
    let recs := add_summary_to_last_record group (build_sample_group_records group)
    let recs := if bounds_pending then set_head_sample_bounds recs samples_bounds_text else recs
    recs ++ format_samples_aux rest false

/-- `Load.format_samples` (`excel_load.py` lines 122-138), from the cleaned
table. -/
def format_samples (cleaned : Table) : List SampleRecord :=
  format_samples_aux (sample_groups cleaned).2 true

/-- One record of the Reported Results table (columns "Sample ID", "umol/L C"). -/
structure ReportedRecord where
  sampleId : String
  umolPerL : Option ℚ
  deriving Repr, DecidableEq

/-- `Load.format_reported_results` (`excel_load.py` lines 156-163). -/
def format_reported_results (cleaned : Table) : List ReportedRecord :=
  (sample_groups cleaned).2.map fun g =>
    ⟨g.1, convert_to_umol_per_L (calculate_mean_ppm g.2) molecular_weight⟩

/-- State-passing rendering of one engine invocation: the source's only
mutations act on fresh dicts and on the `.copy()` made in `format_qc`
(line 54), so the input table is threaded through to the result unchanged. -/
def export_tables (df : Table) :
    (List QCRecord × List SampleRecord × List ReportedRecord) × Table :=
  ((format_qc df, format_samples df, format_reported_results df), df)

/-- First-seen-order deduplication, written as the specification describes it:
keep each identifier's first occurrence, drop its later duplicates. -/
def dedupFirst : List String → List String
  | [] => []
  | x :: xs => x :: dedupFirst (xs.filter (fun y => y != x))
termination_by l => l.length
decreasing_by
  simp only [List.length_cons]
  exact Nat.lt_succ_of_le (List.length_filter_le _ _)

/-! ### Specification-side table layouts

These definitions follow the words of the specification (per-group record
blocks in first-seen order, the group summary merged into the last record of
its block, the bounds text on the first data record); the claim theorems
compare the source-translated builders against them. -/

/-- The spec's description of the trailing QC-table record: Sample ID
"Average", PPM C the pooled mean of the ppm values of all QCB rows combined,
all other fields null. -/
def qcb_average_spec (qcb_samples : Table) : QCRecord :=
  ⟨some "Average", mean_of (qcb_samples.filterMap (·.ppm)), none, none, none, none⟩

/-- The spec's description of the whole QC table: per-row records of every
QC group in first-seen order (summary on each group's last record, bounds on
the first data record when a QC row exists), one all-null separator, per-row
QCB records without summaries, and the pooled-average record. -/
def format_qc_spec (df : Table) : List QCRecord :=
  let qc_samples := qc_samples_of df
  let qcb_samples := qcb_samples_of df
  set_head_bounds
      (((dedupFirst (qc_samples.map (·.sampleId))).map
        (qc_group_records qc_samples)).flatten)
      qc_bounds_text
    ++ [null_qc_record]
    ++ qcb_samples.map base_qc_record
    ++ [qcb_average_spec qcb_samples]

/-- The spec's description of the Samples table: per-row records of every
non-QC group in first-seen order, the group's mean/%RPD/umol merged into the
last record of its block, bounds text on the first data record. -/
def format_samples_spec (cleaned : Table) : List SampleRecord :=
  let samples_only := (sample_groups cleaned).1
  let groups := (dedupFirst (samples_only.map (·.sampleId))).map
    (fun id => (id, samples_only.filter (fun r => r.sampleId == id)))
  set_head_sample_bounds
    ((groups.map fun g =>
      add_summary_to_last_record g.2 (build_sample_group_records g.2)).flatten)
    samples_bounds_text

/-! ### Test fixtures for witness and counterexample theorems -/

/-- An ICB blank row (a QCB-category identifier, Sample Type "Samples"). -/
def rowICB : Row := ⟨"ICB", "Samples", none, none, none⟩

/-- A CCB blank row. -/
def rowCCB1 : Row := ⟨"CCB1", "Samples", none, none, none⟩

/-- An ordinary sample row. -/
def rowS1 : Row := ⟨"S1", "Samples", none, none, none⟩

/-- A second ordinary sample row with a different identifier. -/
def rowS2 : Row := ⟨"S2", "Samples", none, none, none⟩

/-- An MDL QC row. -/
def rowMDL : Row := ⟨"MDL", "Samples", none, none, none⟩

/-- A row whose identifier matches a QC pattern but whose Sample Type is not
"Samples". -/
def rowWrongType : Row := ⟨"CCV7", "Standards", none, none, none⟩

/-! ### Helper lemmas -/

theorem char_toNat_ofNat_of_lt {n : Nat} (h : n < 55296) :
    (Char.ofNat n).toNat = n := by
  have hv : n.isValidChar := Or.inl h
  simp [Char.ofNat, hv, Char.ofNatAux, Char.toNat, UInt32.toNat, BitVec.toNat_ofNatLt]

theorem char_toUpper_toUpper (c : Char) : c.toUpper.toUpper = c.toUpper := by
  unfold Char.toUpper
  by_cases h : c.toNat ≥ 97 ∧ c.toNat ≤ 122
  · rw [if_pos h]
    have h2 : (Char.ofNat (c.toNat - 32)).toNat = c.toNat - 32 :=
      char_toNat_ofNat_of_lt (by omega)
    rw [if_neg (by rw [h2]; omega)]
  · rw [if_neg h, if_neg h]

theorem pyUpper_pyUpper (s : String) : pyUpper (pyUpper s) = pyUpper s := by
  show String.mk ((s.data.map Char.toUpper).map Char.toUpper) = _
  rw [List.map_map]
  exact congrArg String.mk
    (List.map_congr_left fun c _ => char_toUpper_toUpper c)

theorem mem_unique_aux (x : String) :
    ∀ (l seen : List String), x ∈ unique_aux l seen ↔ x ∈ l ∧ x ∉ seen := by
  intro l
  induction l with
  | nil => intro seen; simp [unique_aux]
  | cons a rest ih =>
    intro seen
    by_cases h : a ∈ seen
    · rw [unique_aux, if_pos h, ih]
      simp only [List.mem_cons]
      constructor
      · rintro ⟨hx, hs⟩; exact ⟨Or.inr hx, hs⟩
      · rintro ⟨hx | hx, hs⟩
        · exact absurd (hx ▸ h) hs
        · exact ⟨hx, hs⟩
    · rw [unique_aux, if_neg h]
      simp only [List.mem_cons, ih, List.mem_cons]
      by_cases hxa : x = a
      · subst hxa; simp [h]
      · simp [hxa]

theorem nodup_unique_aux :
    ∀ (l seen : List String), (unique_aux l seen).Nodup := by
  intro l
  induction l with
  | nil => intro seen; simp [unique_aux]
  | cons a rest ih =>
    intro seen
    by_cases h : a ∈ seen
    · rw [unique_aux, if_pos h]; exact ih seen
    · rw [unique_aux, if_neg h]
      refine List.nodup_cons.mpr ⟨?_, ih _⟩
      intro hmem
      exact ((mem_unique_aux a rest (a :: seen)).mp hmem).2 (List.mem_cons_self a seen)

theorem sublist_unique_aux :
    ∀ (l seen : List String), (unique_aux l seen).Sublist l := by
  intro l
  induction l with
  | nil => intro seen; simp [unique_aux]
  | cons a rest ih =>
    intro seen
    by_cases h : a ∈ seen
    · rw [unique_aux, if_pos h]
      exact (ih seen).trans (List.sublist_cons_self a rest)
    · rw [unique_aux, if_neg h]
      exact (ih (a :: seen)).cons₂ a

theorem unique_aux_eq_dedupFirst :
    ∀ (l seen : List String),
      unique_aux l seen = dedupFirst (l.filter (fun y => decide (y ∉ seen))) := by
  intro l
  induction l with
  | nil => intro seen; simp [unique_aux, dedupFirst]
  | cons a rest ih =>
    intro seen
    by_cases h : a ∈ seen
    · rw [unique_aux, if_pos h, List.filter_cons_of_neg (by simpa using h), ih]
    · rw [unique_aux, if_neg h, List.filter_cons_of_pos (by simpa using h),
        dedupFirst, List.filter_filter, ih (a :: seen)]
      congr 2
      apply List.filter_congr
      intro y _
      by_cases hy : y = a
      · subst hy; simp
      · by_cases hys : y ∈ seen <;> simp [hy, hys]

theorem get_unique_ordered_ids_eq_dedupFirst (df : Table) :
    get_unique_ordered_ids df = dedupFirst (df.map (·.sampleId)) := by
  rw [get_unique_ordered_ids, unique_aux_eq_dedupFirst]
  congr 1
  simp

theorem length_set_last_summary (m r p : Option ℚ) :
    ∀ l : List QCRecord, (set_last_summary l m r p).length = l.length := by
  intro l
  induction l with
  | nil => rfl
  | cons x xs ih =>
    cases xs with
    | nil => rfl
    | cons y ys => simp only [set_last_summary, List.length_cons] at ih ⊢; omega

theorem length_set_last_sample_summary (m r u : Option ℚ) :
    ∀ l : List SampleRecord, (set_last_sample_summary l m r u).length = l.length := by
  intro l
  induction l with
  | nil => rfl
  | cons x xs ih =>
    cases xs with
    | nil => rfl
    | cons y ys => simp only [set_last_sample_summary, List.length_cons] at ih ⊢; omega

theorem filter_id_ne_nil (df : Table) (id : String) (h : id ∈ df.map (·.sampleId)) :
    df.filter (fun r => r.sampleId == id) ≠ [] := by
  obtain ⟨r, hr, hr2⟩ := List.mem_map.mp h
  have : r ∈ df.filter (fun r => r.sampleId == id) :=
    List.mem_filter.mpr ⟨hr, by simp [hr2]⟩
  exact List.ne_nil_of_mem this

theorem qc_group_records_ne_nil (qs : Table) (id : String)
    (h : id ∈ get_unique_ordered_ids qs) : qc_group_records qs id ≠ [] := by
  rw [get_unique_ordered_ids] at h
  have hid : id ∈ qs.map (·.sampleId) :=
    ((mem_unique_aux id (qs.map (·.sampleId)) []).mp h).1
  have hne := filter_id_ne_nil qs id hid
  unfold qc_group_records
  intro hcon
  apply hne
  have := congrArg List.length hcon
  rw [length_set_last_summary, List.length_map] at this
  exact List.length_eq_zero.mp this

theorem build_qc_records_aux_false (qs : Table) :
    ∀ ids : List String,
      build_qc_records_aux qs ids false = (ids.map (qc_group_records qs)).flatten := by
  intro ids
  induction ids with
  | nil => rfl
  | cons id rest ih => simp [build_qc_records_aux, ih]

theorem set_head_bounds_append (b : String) (l₁ l₂ : List QCRecord) (h : l₁ ≠ []) :
    set_head_bounds (l₁ ++ l₂) b = set_head_bounds l₁ b ++ l₂ := by
  cases l₁ with
  | nil => exact absurd rfl h
  | cons x xs => simp [set_head_bounds]

theorem build_qc_records_aux_true (qs : Table) (ids : List String)
    (h : ∀ id ∈ ids, qc_group_records qs id ≠ []) :
    build_qc_records_aux qs ids true =
      set_head_bounds ((ids.map (qc_group_records qs)).flatten) qc_bounds_text := by
  cases ids with
  | nil => rfl
  | cons id rest =>
    have h1 : qc_group_records qs id ≠ [] := h id (List.mem_cons_self id rest)
    rw [build_qc_records_aux, if_pos rfl, build_qc_records_aux_false,
      List.map_cons, List.flatten_cons, set_head_bounds_append _ _ _ h1]

theorem set_head_sample_bounds_append (b : String) (l₁ l₂ : List SampleRecord)
    (h : l₁ ≠ []) :
    set_head_sample_bounds (l₁ ++ l₂) b = set_head_sample_bounds l₁ b ++ l₂ := by
  cases l₁ with
  | nil => exact absurd rfl h
  | cons x xs => simp [set_head_sample_bounds]

theorem format_samples_aux_false :
    ∀ groups : List (String × Table),
      format_samples_aux groups false =
        (groups.map fun g =>
          add_summary_to_last_record g.2 (build_sample_group_records g.2)).flatten := by
  intro groups
  induction groups with
  | nil => rfl
  | cons g rest ih =>
    obtain ⟨id, group⟩ := g
    simp [format_samples_aux, ih]

theorem sample_summary_records_ne_nil (group : Table) (h : group ≠ []) :
    add_summary_to_last_record group (build_sample_group_records group) ≠ [] := by
  unfold add_summary_to_last_record build_sample_group_records
  intro hcon
  apply h
  have := congrArg List.length hcon
  rw [length_set_last_sample_summary, List.length_map] at this
  exact List.length_eq_zero.mp this

theorem format_samples_aux_true (groups : List (String × Table))
    (h : ∀ g ∈ groups, g.2 ≠ []) :
    format_samples_aux groups true =
      set_head_sample_bounds
        ((groups.map fun g =>
          add_summary_to_last_record g.2 (build_sample_group_records g.2)).flatten)
        samples_bounds_text := by
  cases groups with
  | nil => rfl
  | cons g rest =>
    obtain ⟨id, group⟩ := g
    have h1 : group ≠ [] := h (id, group) (List.mem_cons_self _ rest)
    rw [format_samples_aux, if_pos rfl, format_samples_aux_false, List.map_cons,
      List.flatten_cons,
      set_head_sample_bounds_append _ _ _ (sample_summary_records_ne_nil group h1)]

theorem mem_groups_ne_nil (cleaned : Table) :
    ∀ g ∈ (sample_groups cleaned).2, g.2 ≠ [] := by
  intro g hg
  unfold sample_groups build_sample_groups at hg
  simp only [List.mem_map] at hg
  obtain ⟨id, hid, hgeq⟩ := hg
  subst hgeq
  have hid2 : id ∈ (trimIds cleaned |>.filter
      (fun r => !qc_pattern_match r.sampleId)).map (·.sampleId) :=
    ((mem_unique_aux id _ []).mp hid).1
  exact filter_id_ne_nil _ id hid2

theorem sample_groups_snd_eq (cleaned : Table) :
    (sample_groups cleaned).2 =
      (dedupFirst ((sample_groups cleaned).1.map (·.sampleId))).map
        (fun id => (id, (sample_groups cleaned).1.filter (fun r => r.sampleId == id))) := by
  simp only [sample_groups, build_sample_groups]
  rw [get_unique_ordered_ids_eq_dedupFirst]

/-! ### Claim theorems -/

/-- **C1** (counterexample to the claim as stated): on an input whose only row
is an ICB blank, the QC table has a data row (the ICB record) but no record at
all carries the Bounds string — the bounds text is only ever written while a
MDL/ICV/CCVn group is emitted, so "the very first data row of the whole table
carries the Bounds string" fails when the QC section is empty. -/
theorem claim_C1_counterexample :
    (format_qc [rowICB]).map (fun rec => (rec.sampleId, rec.bounds)) =
      [(none, none), (some "ICB", none), (some "Average", none)] := by
  decide

/-- **C1** (amended: the first data row carries the Bounds string only when at
least one QC-category row exists): the QC table built by `format_qc` equals
the spec-side layout — per-row records of every MDL/ICV/CCVn group in
first-seen order with each group's Mean ppm C/%R/%RPD only on its last
record, the bounds string on the head of the QC section, one all-null
separator record, one record per QCB (ICB/CCBn) row with no per-group
summary, and a final "Average" record whose PPM C is the pooled mean of all
QCB ppm values and whose other fields are null. -/
theorem claim_C1_qc_table (df : Table) : format_qc df = format_qc_spec df := by
  simp only [format_qc, format_qc_spec, build_qc_records, build_qcb_records,
    build_qcb_average, qcb_average_spec, calculate_mean_ppm]
  rw [build_qc_records_aux_true _ _ (fun id h => qc_group_records_ne_nil _ _ h),
    get_unique_ordered_ids_eq_dedupFirst]

/-- **C2**: the Samples table built by `format_samples` equals the spec-side
layout — one record per row of each non-QC group, groups in first-seen order,
the group's Mean ppm C, %RPD and umol/L C (= mean / 12.01057) merged into the
last physical record of its block with those fields null on every other
record, and the Bounds text "RPD: ≤10%" on the first data record of the
table. -/
theorem claim_C2_samples_table (cleaned : Table) :
    format_samples cleaned = format_samples_spec cleaned := by
  simp only [format_samples, format_samples_spec]
  rw [format_samples_aux_true _ (mem_groups_ne_nil cleaned), sample_groups_snd_eq]

/-- **C3**: `is_out_of_bounds` is true exactly when the numeric value violates
its check-type's threshold (QC_R: outside [90,110]; MDL_R: outside [45,145];
RPD: above 10), is false on any value that fails float conversion (`none`)
and on any other check type, and satisfies the four quoted instances. -/
theorem claim_C3_bounds (v : Option ℚ) (ct : String) :
    (is_out_of_bounds v ct = true ↔
      ∃ q, v = some q ∧
        ((ct = "QC_R" ∧ (q < 90 ∨ 110 < q)) ∨
         (ct = "MDL_R" ∧ (q < 45 ∨ 145 < q)) ∨
         (ct = "RPD" ∧ 10 < q))) ∧
    is_out_of_bounds none ct = false ∧
    (ct ≠ "QC_R" → ct ≠ "MDL_R" → ct ≠ "RPD" → is_out_of_bounds v ct = false) ∧
    is_out_of_bounds (some 146) "MDL_R" = true ∧
    is_out_of_bounds (some 144) "MDL_R" = false ∧
    is_out_of_bounds (some 11) "RPD" = true ∧
    is_out_of_bounds (some 10) "RPD" = false := by
  refine ⟨?_, rfl, ?_, by decide, by decide, by decide, by decide⟩
  · cases v with
    | none => simp [is_out_of_bounds]
    | some q =>
      by_cases h1 : ct = "QC_R"
      · subst h1; simp [is_out_of_bounds]
      · by_cases h2 : ct = "MDL_R"
        · subst h2; simp [is_out_of_bounds]
        · by_cases h3 : ct = "RPD"
          · subst h3; simp [is_out_of_bounds]
          · simp [is_out_of_bounds, h1, h2, h3]
  · intro h1 h2 h3
    cases v with
    | none => rfl
    | some q => simp [is_out_of_bounds, h1, h2, h3]

/-- **C3** witness: the unknown-check-type clause instantiated at a concrete
numeric value and check type. -/
theorem claim_C3_bounds_witness : is_out_of_bounds (some 99) "FOO" = false :=
  (claim_C3_bounds (some 99) "FOO").2.2.1 (by decide) (by decide) (by decide)

/-- **C8** (counterexample to the claim as stated): on an empty input table
the Samples and Reported Results tables are empty, but the QC table is not —
the separator and "Average" records are appended unconditionally. -/
theorem claim_C8_counterexample :
    format_samples [] = [] ∧ format_reported_results [] = [] ∧
      format_qc [] ≠ [] := by
  refine ⟨rfl, rfl, ?_⟩
  decide

/-- **C8** (amended: on an empty input no error is raised, the Samples and
Reported Results tables are empty, and the QC table contains exactly the
all-null separator record and an "Average" record with null PPM C). -/
theorem claim_C8_empty_input :
    format_qc [] = [null_qc_record, ⟨some "Average", none, none, none, none, none⟩] ∧
    format_samples [] = [] ∧ format_reported_results [] = [] := by
  refine ⟨?_, rfl, rfl⟩
  decide

/-- **C9**: the engine is a pure value-level pipeline — the input table
threads through an invocation unchanged (`export_tables` returns it as its
state component), each output table is a fresh value computed by its own
builder, and re-running a builder on the returned state reproduces the same
output (no state is retained between invocations). The source's only
mutations act on per-record dicts it just allocated and on the `.copy()` made
in `format_qc`, never on the input. -/
theorem claim_C9_read_only (df : Table) :
    (export_tables df).2 = df ∧
    (export_tables df).1.1 = format_qc df ∧
    (export_tables df).1.2.1 = format_samples df ∧
    (export_tables df).1.2.2 = format_reported_results df ∧
    format_qc (export_tables df).2 = format_qc df ∧
    format_samples (export_tables df).2 = format_samples df ∧
    format_reported_results (export_tables df).2 = format_reported_results df :=
  ⟨rfl, rfl, rfl, rfl, rfl, rfl, rfl⟩

/-- **C4**: classification is a pure, case-insensitive, full-string match —
`classify s = classify (s.upper())`, an identifier is an ordinary Sample
exactly when the source's QC regex rejects it, `"mdl"`, `"Mdl"` and `"MDL"`
classify identically, and strings merely containing a pattern (`"MDL2"`,
`"xMDL"`) are Samples. -/
theorem claim_C4_classify (s : String) :
    classify (pyUpper s) = classify s ∧
    (classify s = QCCategory.Sample ↔ qc_pattern_match s = false) ∧
    classify "mdl" = QCCategory.MDL ∧ classify "Mdl" = QCCategory.MDL ∧
    classify "MDL" = QCCategory.MDL ∧ classify "MDL2" = QCCategory.Sample ∧
    classify "xMDL" = QCCategory.Sample ∧ classify "ccv12" = QCCategory.CCV ∧
    classify "Rinse" = QCCategory.Rinse := by
  refine ⟨?_, ?_, by decide, by decide, by decide, by decide, by decide,
    by decide, by decide⟩
  · unfold classify
    rw [pyUpper_pyUpper]
  · unfold classify qc_pattern_match
    by_cases h1 : ((pyUpper s).data == "MDL".data) = true <;>
      by_cases h2 : ((pyUpper s).data == "ICV".data) = true <;>
        by_cases h3 : ((pyUpper s).data == "ICB".data) = true <;>
          by_cases h4 : ((pyUpper s).data == "RINSE".data) = true <;>
            by_cases h5 : ccv_tail (pyUpper s).data = true <;>
              by_cases h6 : ccb_tail (pyUpper s).data = true <;>
                simp [h1, h2, h3, h4, h5, h6]

/-- **C5**: the %R target is resolved case-insensitively — MDL ↦ 0.2,
ICV ↦ 18.0, any CCV-prefixed identifier ↦ 10.0, anything else ↦ null — and a
null or zero target makes the %R null, never an exception. -/
theorem claim_C5_targets (id : String) (rows : Table) :
    (pyUpper id = "MDL" → resolve_target id = some (1/5)) ∧
    (pyUpper id = "ICV" → resolve_target id = some 18) ∧
    (upper_startsWith_CCV id = true → resolve_target id = some 10) ∧
    (pyUpper id ≠ "MDL" → pyUpper id ≠ "ICV" → upper_startsWith_CCV id = false →
      resolve_target id = none) ∧
    resolve_target (pyUpper id) = resolve_target id ∧
    (resolve_target id = none → calculate_percent_R rows (resolve_target id) = none) ∧
    calculate_percent_R rows none = none ∧
    calculate_percent_R rows (some 0) = none := by
  refine ⟨?_, ?_, ?_, ?_, ?_, ?_, rfl, ?_⟩
  · intro h
    have hccv : upper_startsWith_CCV id = false := by
      unfold upper_startsWith_CCV
      rw [h]
      decide
    simp [resolve_target, qc_targets, hccv, h]
  · intro h
    have hccv : upper_startsWith_CCV id = false := by
      unfold upper_startsWith_CCV
      rw [h]
      decide
    simp [resolve_target, qc_targets, hccv, h]
  · intro h
    simp [resolve_target, h]
  · intro h1 h2 h3
    simp [resolve_target, qc_targets, h3, beq_iff_eq, h1, h2]
  · unfold resolve_target upper_startsWith_CCV qc_targets
    rw [pyUpper_pyUpper]
  · intro h
    rw [h]
    rfl
  · simp [calculate_percent_R]

/-- **C5** witness: the target resolution and the null-%R clauses at concrete
identifiers of each case. -/
theorem claim_C5_targets_witness :
    resolve_target "mdl" = some (1/5) ∧ resolve_target "Icv" = some 18 ∧
    resolve_target "ccv12" = some 10 ∧ resolve_target "Rinse" = none ∧
    calculate_percent_R [] (some 0) = none :=
  ⟨(claim_C5_targets "mdl" []).1 (by decide),
   (claim_C5_targets "Icv" []).2.1 (by decide),
   (claim_C5_targets "ccv12" []).2.2.1 (by decide),
   (claim_C5_targets "Rinse" []).2.2.2.1 (by decide) (by decide) (by decide),
   (claim_C5_targets "Rinse" []).2.2.2.2.2.2.2⟩

/-- **C6**: grouping produces groups in first-seen identifier order (the group
identifier sequence is exactly the first-occurrence deduplication of the
cleaned non-QC table's identifier column), and each group is the subsequence
of the table's rows with that identifier, so rows keep their source order. -/
theorem claim_C6_grouping (cleaned : Table) :
    (sample_groups cleaned).2.map Prod.fst =
      dedupFirst ((sample_groups cleaned).1.map (·.sampleId)) ∧
    ∀ g ∈ (sample_groups cleaned).2,
      g.2 = (sample_groups cleaned).1.filter (fun r => r.sampleId == g.1) ∧
      g.2.Sublist (sample_groups cleaned).1 := by
  constructor
  · rw [sample_groups_snd_eq, List.map_map]
    exact (List.map_congr_left fun a _ => rfl).trans (List.map_id _)
  · intro g hg
    rw [sample_groups_snd_eq] at hg
    simp only [List.mem_map] at hg
    obtain ⟨id, _, hgeq⟩ := hg
    subst hgeq
    exact ⟨rfl, List.filter_sublist _⟩

/-- **C6** witness: first-seen order and the per-group row characterization on
a concrete two-identifier table. -/
theorem claim_C6_grouping_witness :
    ((sample_groups [rowS1, rowS2]).2.map Prod.fst =
      dedupFirst ((sample_groups [rowS1, rowS2]).1.map (·.sampleId))) ∧
    (("S1", [rowS1]).2 = (sample_groups [rowS1, rowS2]).1.filter
        (fun r => r.sampleId == ("S1", [rowS1]).1) ∧
      ("S1", [rowS1]).2.Sublist (sample_groups [rowS1, rowS2]).1) :=
  ⟨(claim_C6_grouping [rowS1, rowS2]).1,
   (claim_C6_grouping [rowS1, rowS2]).2 ("S1", [rowS1]) (by decide)⟩

/-- **C7**: the QC/QCB row pool is the cleaned table filtered by
`Sample Type == "Samples"` first and re-filtered by identifier pattern only
afterwards — rows of any other Sample Type never influence the QC table even
when their identifier matches a QC pattern, every pooled row has Sample Type
"Samples", and membership in the QC pool is exactly "pattern-matching trimmed
image of a Samples-typed input row". -/
theorem claim_C7_type_filter (df : Table) :
    format_qc df = format_qc (df.filter (fun r => r.sampleType == "Samples")) ∧
    (∀ r ∈ qc_samples_of df, r.sampleType = "Samples" ∧ qc_mask r.sampleId = true) ∧
    (∀ r ∈ qcb_samples_of df, r.sampleType = "Samples" ∧ qcb_mask r.sampleId = true) ∧
    (∀ r, r ∈ qc_samples_of df ↔
      (qc_mask r.sampleId = true ∧
        ∃ r0 ∈ df, r0.sampleType = "Samples" ∧ r = trimRow r0)) := by
  have hff : (df.filter (fun r => r.sampleType == "Samples")).filter
      (fun r => r.sampleType == "Samples") =
        df.filter (fun r => r.sampleType == "Samples") := by
    rw [List.filter_filter]
    apply List.filter_congr
    intro a _
    exact Bool.and_self _
  refine ⟨?_, ?_, ?_, ?_⟩
  · unfold format_qc qc_samples_of qcb_samples_of samples_typed
    rw [hff]
  · intro r hr
    unfold qc_samples_of samples_typed trimIds at hr
    rw [List.mem_filter] at hr
    obtain ⟨hmem, hmask⟩ := hr
    rw [List.mem_map] at hmem
    obtain ⟨r0, hr0, hr0eq⟩ := hmem
    rw [List.mem_filter] at hr0
    subst hr0eq
    refine ⟨?_, hmask⟩
    simpa [trimRow] using hr0.2
  · intro r hr
    unfold qcb_samples_of samples_typed trimIds at hr
    rw [List.mem_filter] at hr
    obtain ⟨hmem, hmask⟩ := hr
    rw [List.mem_map] at hmem
    obtain ⟨r0, hr0, hr0eq⟩ := hmem
    rw [List.mem_filter] at hr0
    subst hr0eq
    refine ⟨?_, hmask⟩
    simpa [trimRow] using hr0.2
  · intro r
    unfold qc_samples_of samples_typed trimIds
    constructor
    · intro hr
      rw [List.mem_filter] at hr
      obtain ⟨hmem, hmask⟩ := hr
      rw [List.mem_map] at hmem
      obtain ⟨r0, hr0, hr0eq⟩ := hmem
      rw [List.mem_filter] at hr0
      subst hr0eq
      exact ⟨hmask, r0, hr0.1, by simpa using hr0.2, rfl⟩
    · rintro ⟨hmask, r0, hr0, htype, hreq⟩
      subst hreq
      rw [List.mem_filter]
      exact ⟨List.mem_map.mpr ⟨r0, List.mem_filter.mpr ⟨hr0, by simp [htype]⟩, rfl⟩,
        hmask⟩

/-- **C7** witness: the Samples-typed MDL row is in the QC pool of its
singleton table, with Sample Type "Samples" and a matching pattern. -/
theorem claim_C7_type_filter_witness :
    rowMDL.sampleType = "Samples" ∧ qc_mask rowMDL.sampleId = true :=
  (claim_C7_type_filter [rowMDL]).2.1 rowMDL (by decide)

/-- **C10**: the groups form an ordered partition of the non-QC rows — group
identifiers are duplicate-free, every group is non-empty and its rows all
carry the group's (trimmed) identifier, every non-QC row lies in exactly one
group, and groups contain only rows of the table. -/
theorem claim_C10_partition (cleaned : Table) :
    ((sample_groups cleaned).2.map Prod.fst).Nodup ∧
    (∀ g ∈ (sample_groups cleaned).2, g.2 ≠ [] ∧ ∀ r ∈ g.2, r.sampleId = g.1) ∧
    (∀ r ∈ (sample_groups cleaned).1, ∃ g ∈ (sample_groups cleaned).2,
      r ∈ g.2 ∧ ∀ g2 ∈ (sample_groups cleaned).2, r ∈ g2.2 → g2 = g) ∧
    (∀ g ∈ (sample_groups cleaned).2, ∀ r ∈ g.2, r ∈ (sample_groups cleaned).1) := by
  have hgr : (sample_groups cleaned).2 =
      build_sample_groups (sample_groups cleaned).1
        (get_unique_ordered_ids (sample_groups cleaned).1) := rfl
  refine ⟨?_, ?_, ?_, ?_⟩
  · have h1 : (sample_groups cleaned).2.map Prod.fst =
        get_unique_ordered_ids (sample_groups cleaned).1 := by
      rw [hgr]
      unfold build_sample_groups
      rw [List.map_map]
      exact (List.map_congr_left fun a _ => rfl).trans (List.map_id _)
    rw [h1, get_unique_ordered_ids]
    exact nodup_unique_aux _ _
  · intro g hg
    rw [hgr] at hg
    unfold build_sample_groups at hg
    rw [List.mem_map] at hg
    obtain ⟨id, hid, hgeq⟩ := hg
    subst hgeq
    rw [get_unique_ordered_ids] at hid
    constructor
    · exact filter_id_ne_nil _ id ((mem_unique_aux id _ []).mp hid).1
    · intro r hrg
      rw [List.mem_filter] at hrg
      simpa using hrg.2
  · intro r hr
    refine ⟨(r.sampleId, (sample_groups cleaned).1.filter
        (fun x => x.sampleId == r.sampleId)), ?_, ?_, ?_⟩
    · rw [hgr]
      unfold build_sample_groups
      apply List.mem_map.mpr
      refine ⟨r.sampleId, ?_, rfl⟩
      rw [get_unique_ordered_ids]
      exact (mem_unique_aux _ _ _).mpr
        ⟨List.mem_map_of_mem _ hr, List.not_mem_nil _⟩
    · exact List.mem_filter.mpr ⟨hr, by simp⟩
    · intro g2 hg2 hrg2
      rw [hgr] at hg2
      unfold build_sample_groups at hg2
      rw [List.mem_map] at hg2
      obtain ⟨id2, _, hg2eq⟩ := hg2
      subst hg2eq
      rw [List.mem_filter] at hrg2
      have : r.sampleId = id2 := by simpa using hrg2.2
      rw [this]
  · intro g hg r hrg
    rw [hgr] at hg
    unfold build_sample_groups at hg
    rw [List.mem_map] at hg
    obtain ⟨id, _, hgeq⟩ := hg
    subst hgeq
    rw [List.mem_filter] at hrg
    exact hrg.1

/-- **C10** witness: the unique-group clause at a concrete one-row table. -/
theorem claim_C10_partition_witness :
    ∃ g ∈ (sample_groups [rowS1]).2, rowS1 ∈ g.2 ∧
      ∀ g2 ∈ (sample_groups [rowS1]).2, rowS1 ∈ g2.2 → g2 = g :=
  (claim_C10_partition [rowS1]).2.2.1 rowS1 (by decide)

end ETL
